import Mathlib

/-!
A shallow embedding of the `speck` Snowflake-account operator's controller
package (files `snowflakeaccount.go`, `utils.go`, `snowflakeaccount_controller.go`,
finalizer handling) together with proofs about it.

Go strings that are indexed or scanned character by character are modelled as
`List Char`; timestamps and durations as `Int` nanoseconds; fallible external
calls (Kubernetes API writes, SQL connections) as explicit outcome parameters
threaded through each reconcile pass.
-/

namespace Speck

/-! ## Credential / name generator (`utils.go`) -/

def upperChars : List Char := "ABCDEFGHIJKLMNOPQRSTUVWXYZ".toList

def lowerChars : List Char := "abcdefghijklmnopqrstuvwxyz".toList

def digitChars : List Char := "0123456789".toList

def specialChars : List Char := "!@#$%^&*".toList

def upperAlnumChars : List Char := "ABCDEFGHIJKLMNOPQRSTUVWXYZ0123456789".toList

def lowerAlnumChars : List Char := "abcdefghijklmnopqrstuvwxyz0123456789".toList

/-- Models `crypto/rand.Int(rand.Reader, bound)`: either the secure source
fails (`none`) or it returns a value in `[0, bound)`.  The oracle supplies the
raw randomness for the call with the given index; the library's contract that
the result is below the bound is modelled by reducing modulo the bound. -/
def goRandInt (oracle : Nat → Option Nat) (idx bound : Nat) : Option Nat :=
  (oracle idx).map (fun r => r % bound)

/-- `generateRandomString(length, charset)` from `utils.go`: one character per
position drawn via `rand.Int`; on a secure-source failure position `i` falls
back to `charset[i % len(charset)]`. -/
def generateRandomString (oracle : Nat → Option Nat) (length : Nat)
    (charset : List Char) : List Char :=
  (List.range length).map (fun i =>
    match goRandInt oracle i charset.length with
    | none => charset.getD (i % charset.length) 'A'
    | some k => charset.getD k 'A')

/-- `generateRandomAccountName`: `"SF"` plus 6 uppercase-alphanumeric characters. -/
def generateRandomAccountName (oracle : Nat → Option Nat) : List Char :=
  "SF".toList ++ generateRandomString oracle 6 upperAlnumChars

/-- `generateRandomUsername`: `"admin_"` plus 8 lowercase-alphanumeric characters. -/
def generateRandomUsername (oracle : Nat → Option Nat) : List Char :=
  "admin_".toList ++ generateRandomString oracle 8 lowerAlnumChars

/-- The simultaneous swap `runes[i], runes[j] = runes[j], runes[i]`. -/
def swapList (l : List Char) (i j : Nat) : List Char :=
  match l.get? i, l.get? j with
  | some a, some b => (l.set i b).set j a
  | _, _ => l

/-- One iteration of the loop in `shuffleString`: draw `j` in `[0, i]`,
skip the swap when the secure source fails (`continue`). -/
def shuffleStep (oracle : Nat → Option Nat) (l : List Char) (i : Nat) : List Char :=
  match goRandInt oracle i (i + 1) with
  | none => l
  | some j => swapList l i j

/-- The loop `for i := n-1; i > 0; i--` of `shuffleString`, run from index
`i` down to 1. -/
def shuffleDown (oracle : Nat → Option Nat) : List Char → Nat → List Char
  | l, 0 => l
  | l, i + 1 => shuffleDown oracle (shuffleStep oracle l (i + 1)) i

/-- `shuffleString` from `utils.go`. -/
def shuffleString (oracle : Nat → Option Nat) (s : List Char) : List Char :=
  shuffleDown oracle s (s.length - 1)

/-- `generateRandomPassword`: 4 uppercase + 4 lowercase + 4 digits + 2 special
characters, concatenated and shuffled.  Each `generateRandomString` call and
the shuffle consume their own randomness. -/
def generateRandomPassword (o1 o2 o3 o4 os : Nat → Option Nat) : List Char :=
  let upper := generateRandomString o1 4 upperChars
  let lower := generateRandomString o2 4 lowerChars
  let numbers := generateRandomString o3 4 digitChars
  let special := generateRandomString o4 2 specialChars
  shuffleString os (upper ++ lower ++ numbers ++ special)

/-! ## Account URL handling (`utils.go`) -/

/-- The account URL written into status and the credentials secret:
`https://<accountName>.snowflakecomputing.com`. -/
def accountURLFor (name : List Char) : List Char :=
  "https://".toList ++ name ++ ".snowflakecomputing.com".toList

/-- The strip step of `extractAccountNameFromURL`: remove a leading
`https://` when `len(url) > 8`. -/
def stripScheme (url : List Char) : List Char :=
  if 8 < url.length ∧ url.take 8 = "https://".toList then url.drop 8 else url

/-- The scan of `extractAccountNameFromURL`: the segment before the first
`'.'`, or `none` when there is no dot. -/
def prefixBeforeDot : List Char → Option (List Char)
  | [] => none
  | c :: rest =>
    if c = '.' then some [] else (prefixBeforeDot rest).map (fun p => c :: p)

/-- `extractAccountNameFromURL` from `utils.go`: empty input yields `""`;
otherwise strip the scheme and return the segment before the first dot,
or `""` when there is none. -/
def extractAccountNameFromURL (url : List Char) : List Char :=
  if url = [] then []
  else (prefixBeforeDot (stripScheme url)).getD []

/-! ## Data model -/

/-- `SnowflakeAccountStatus` (the ObservedState): `accountCreated`,
`accountURL`, `creationTime` (a nullable timestamp, nanoseconds), `message`. -/
structure SnowflakeStatus where
  accountCreated : Bool
  accountURL : List Char
  creationTime : Option Int
  message : String
deriving DecidableEq

/-- The `SnowflakeAccount` custom resource as the reconciler sees it:
whether `DeletionTimestamp` is set, whether the operator finalizer is in
`metadata.finalizers`, `spec.duration`, and the status subresource. -/
structure SnowflakeAccount where
  deletionRequested : Bool
  hasFinalizer : Bool
  specDuration : String
  status : SnowflakeStatus
deriving DecidableEq

/-- `accountDetails` produced by one `createSnowflakeAccount` call. -/
structure AccountDetails where
  accountName : List Char
  adminName : List Char
  adminPassword : List Char
  email : List Char
  region : List Char
  edition : List Char
deriving DecidableEq

/-- The external Snowflake organization: the set of currently existing
account names. -/
abbrev World := List (List Char)

/-! ## Duration policy (`checkDuration`, `utils.go`) -/

/-- Two minutes in nanoseconds, the `2 * time.Minute` default. -/
def twoMinutesNs : Int := 120 * 1000000000

/-- The effective duration computed by `checkDuration`: empty spec strings are
replaced by `"2m"` before parsing, and a parse failure falls back to
`2 * time.Minute`.  `parse` stands for `time.ParseDuration` (`none` = error). -/
def effectiveDuration (parse : String → Option Int) (specDuration : String) : Int :=
  let durationStr := if specDuration = "" then "2m" else specDuration
  match parse durationStr with
  | some d => d
  | none => twoMinutesNs

/-- `checkDuration`: returns `(shouldDelete, requeueAfter)`.  No creation time
means `(false, 0)`; otherwise `shouldDelete` is the strict comparison
`currentTime.After(expirationTime)` and `requeueAfter` the remaining interval. -/
def checkDuration (parse : String → Option Int) (now : Int)
    (acct : SnowflakeAccount) : Bool × Int :=
  match acct.status.creationTime with
  | none => (false, 0)
  | some creationTime =>
    let duration := effectiveDuration parse acct.specDuration
    let expirationTime := creationTime + duration
    if expirationTime < now then (true, 0)
    else (false, expirationTime - now)

/-! ## Status update after creation (`updateStatusAfterCreation`, `utils.go`) -/

/-- `updateStatusAfterCreation`: marks the account created, records the URL
built from the generated name, the success message, and `CreationTime := now`,
then persists via `Status().Update` (outcome `statusUpdateOk`; on failure the
persisted object is unchanged and the error is returned). -/
def updateStatusAfterCreation (statusUpdateOk : Bool) (now : Int)
    (acct : SnowflakeAccount) (details : AccountDetails) :
    Option String × SnowflakeAccount :=
  let acct' := { acct with status :=
    { accountCreated := true
      accountURL := accountURLFor details.accountName
      message := "Snowflake account created successfully"
      creationTime := some now } }
  if statusUpdateOk then (none, acct')
  else (some "failed to update status after account creation", acct)

/-! ## Teardown (`deleteSnowflakeAccount`, `snowflakeaccount.go`) -/

/-- Outcomes of the external calls one `deleteSnowflakeAccount` invocation may
make: the labelled-secret list (error, or the `accountName` data of each
matching secret in order), credential-env validation, and the SQL connection. -/
structure DeleteEffects where
  secretList : Except String (List (List Char))
  credsOk : Bool
  connectOk : Bool

/-- Result of one `deleteSnowflakeAccount` invocation: the returned error (if
any), the external world afterwards, and the account name a `DROP ACCOUNT`
statement was issued for (`none` when no statement was executed). -/
structure DeleteResult where
  err : Option String
  world : World
  dropIssuedFor : Option (List Char)
deriving DecidableEq

/-- `getAccountNameFromSecret`: list secrets by label; a list error is an
error, an empty list yields `""`, otherwise the `accountName` data of the
first matching secret. -/
def getAccountNameFromSecret (secretList : Except String (List (List Char))) :
    Except String (List Char) :=
  match secretList with
  | .error e => .error ("failed to list secrets: " ++ e)
  | .ok [] => .ok []
  | .ok (d :: _) => .ok d

/-- The `DROP ACCOUNT IF EXISTS <name> GRACE_PERIOD_IN_DAYS = 3` statement text. -/
def dropAccountSQL (name : List Char) : List Char :=
  "DROP ACCOUNT IF EXISTS ".toList ++ name ++ " GRACE_PERIOD_IN_DAYS = 3".toList

/-- Models executing `DROP ACCOUNT IF EXISTS name` against the organization:
by the `IF EXISTS` semantics the statement succeeds whether or not the account
exists, and afterwards the account does not exist. -/
def dropAccountIfExists (world : World) (name : List Char) : World :=
  List.filter (fun a => a ≠ name) world

/-- The connect-and-drop tail of `deleteSnowflakeAccount`, reached once the
name-resolution block has fallen through: validate env credentials, connect,
and execute the drop statement for `accountName`. -/
def deleteSnowflakeAccountRun (eff : DeleteEffects) (world : World)
    (accountName : List Char) : DeleteResult :=
  if !eff.credsOk then
    { err := some "environment variable SNOWFLAKE_ORG_USERNAME is required but not set"
      world := world, dropIssuedFor := none }
  else if !eff.connectOk then
    { err := some "failed to open connection"
      world := world, dropIssuedFor := none }
  else
    { err := none
      world := dropAccountIfExists world accountName
      dropIssuedFor := some accountName }

/-- `deleteSnowflakeAccount`: resolve the account name from the status URL;
when that is empty, consult `getAccountNameFromSecret` — an error or an empty
result is a logged skip (success, no drop).  In the source the name read from
the secret is bound with `:=` inside the `if` block and shadows the outer
`accountName`, so the fall-through path below continues with the outer
(empty) name. -/
def deleteSnowflakeAccount (eff : DeleteEffects) (world : World)
    (acct : SnowflakeAccount) : DeleteResult :=
  let accountName := extractAccountNameFromURL acct.status.accountURL
  if accountName = [] then
    match getAccountNameFromSecret eff.secretList with
    | .error _ => { err := none, world := world, dropIssuedFor := none }
    | .ok secretAccountName =>
      if secretAccountName = [] then
        { err := none, world := world, dropIssuedFor := none }
      else
        deleteSnowflakeAccountRun eff world accountName
  else
    deleteSnowflakeAccountRun eff world accountName

/-! ## Finalizer protocol (`snowflakeaccount_finalizers.go`) -/

/-- Result of `finalizeSnowflakeAccount`. -/
structure FinalizeResult where
  err : Option String
  world : World
  dropIssuedFor : Option (List Char)

/-- `finalizeSnowflakeAccount`: when `Status.AccountCreated` run the external
teardown (wrapping its error), otherwise skip deletion entirely. -/
def finalizeSnowflakeAccount (eff : DeleteEffects) (world : World)
    (acct : SnowflakeAccount) : FinalizeResult :=
  if acct.status.accountCreated then
    let r := deleteSnowflakeAccount eff world acct
    match r.err with
    | some e =>
      { err := some ("failed to delete Snowflake account: " ++ e)
        world := r.world, dropIssuedFor := r.dropIssuedFor }
    | none => { err := none, world := r.world, dropIssuedFor := r.dropIssuedFor }
  else
    { err := none, world := world, dropIssuedFor := none }

/-- Result of `handleFinalizerOperations`: whether to continue with normal
reconciliation, the returned error, the persisted object, the external world,
and any drop statement issued along the way. -/
structure HFOResult where
  continueReconciliation : Bool
  err : Option String
  acct : SnowflakeAccount
  world : World
  dropIssuedFor : Option (List Char)

/-- `handleFinalizerOperations`: on a deletion-marked object with the
finalizer present, finalize then remove the finalizer and persist (`updateOk`;
a failed `Update` leaves the persisted object unchanged); on a live object
without the finalizer, add it and persist; otherwise continue. -/
def handleFinalizerOperations (delEff : DeleteEffects) (updateOk : Bool)
    (world : World) (acct : SnowflakeAccount) : HFOResult :=
  if acct.deletionRequested then
    if acct.hasFinalizer then
      let f := finalizeSnowflakeAccount delEff world acct
      match f.err with
      | some e =>
        { continueReconciliation := false, err := some e, acct := acct
          world := f.world, dropIssuedFor := f.dropIssuedFor }
      | none =>
        if updateOk then
          { continueReconciliation := false, err := none
            acct := { acct with hasFinalizer := false }
            world := f.world, dropIssuedFor := f.dropIssuedFor }
        else
          { continueReconciliation := false
            err := some "failed to remove finalizer", acct := acct
            world := f.world, dropIssuedFor := f.dropIssuedFor }
    else
      { continueReconciliation := false, err := none, acct := acct
        world := world, dropIssuedFor := none }
  else
    if !acct.hasFinalizer then
      if updateOk then
        { continueReconciliation := false, err := none
          acct := { acct with hasFinalizer := true }
          world := world, dropIssuedFor := none }
      else
        { continueReconciliation := false, err := some "failed to add finalizer"
          acct := acct, world := world, dropIssuedFor := none }
    else
      { continueReconciliation := true, err := none, acct := acct
        world := world, dropIssuedFor := none }

/-! ## Top-level reconcile pass (`Reconcile`, `snowflakeaccount_controller.go`) -/

/-- Outcome of the initial `r.Get` fetch. -/
inductive GetOutcome where
  | found : GetOutcome
  | notFound : GetOutcome
  | fetchError : String → GetOutcome
deriving DecidableEq

/-- What one pass returns to the dispatcher: `ctrl.Result{}, nil`,
`ctrl.Result{RequeueAfter: d}, nil`, or `ctrl.Result{}, err`. -/
inductive PassResult where
  | ok : PassResult
  | requeueAfter : Int → PassResult
  | failure : String → PassResult
deriving DecidableEq

/-- Outcomes of every external call one `Reconcile` pass may make.
`parse` stands for `time.ParseDuration`; `now` is `r.Clock.Now()`. -/
structure PassEffects where
  getOutcome : GetOutcome
  delEff : DeleteEffects
  updateOk : Bool
  statusUpdateOk : Bool
  createResult : Except String AccountDetails
  createSecretErr : Option String
  deleteResourceOk : Bool
  now : Int
  parse : String → Option Int

/-- Result of one `Reconcile` pass: the dispatcher-visible result, the
persisted desired-state object, the external world, and any drop statement
issued. -/
structure ReconcileOutcome where
  result : PassResult
  acct : SnowflakeAccount
  world : World
  dropIssuedFor : Option (List Char)

/-- `Reconcile`: fetch (not-found succeeds silently); run the finalizer
protocol and stop unless it says to continue; on a created account run the
duration policy and either request deletion of the resource, requeue, or do
nothing; otherwise provision — a create failure records a message
(best-effort status write) and fails the pass, a secret failure likewise, and
success runs `updateStatusAfterCreation`. -/
def reconcile (eff : PassEffects) (world : World)
    (acct : SnowflakeAccount) : ReconcileOutcome :=
  match eff.getOutcome with
  | .notFound => { result := .ok, acct := acct, world := world, dropIssuedFor := none }
  | .fetchError e =>
    { result := .failure e, acct := acct, world := world, dropIssuedFor := none }
  | .found =>
    let h := handleFinalizerOperations eff.delEff eff.updateOk world acct
    if !h.continueReconciliation then
      { result := match h.err with | some e => .failure e | none => .ok
        acct := h.acct, world := h.world, dropIssuedFor := h.dropIssuedFor }
    else
      if acct.status.accountCreated then
        match checkDuration eff.parse eff.now acct with
        | (true, _) =>
          if eff.deleteResourceOk then
            { result := .ok, acct := { acct with deletionRequested := true }
              world := world, dropIssuedFor := none }
          else
            { result := .failure "failed to delete SnowflakeAccount resource"
              acct := acct, world := world, dropIssuedFor := none }
        | (false, requeueAfter) =>
          if 0 < requeueAfter then
            { result := .requeueAfter requeueAfter, acct := acct
              world := world, dropIssuedFor := none }
          else
            { result := .ok, acct := acct, world := world, dropIssuedFor := none }
      else
        match eff.createResult with
        | .error e =>
          let acct' :=
            if eff.statusUpdateOk then
              { acct with status :=
                { acct.status with message := "Failed to create account: " ++ e } }
            else acct
          { result := .failure e, acct := acct', world := world, dropIssuedFor := none }
        | .ok details =>
          let world' := details.accountName :: world
          match eff.createSecretErr with
          | some se =>
            let acct' :=
              if eff.statusUpdateOk then
                { acct with status :=
                  { acct.status with
                    message := "Account created but failed to store credentials: " ++ se } }
              else acct
            { result := .failure se, acct := acct', world := world', dropIssuedFor := none }
          | none =>
            match updateStatusAfterCreation eff.statusUpdateOk eff.now acct details with
            | (some e, acct') =>
              { result := .failure e, acct := acct', world := world', dropIssuedFor := none }
            | (none, acct') =>
              { result := .ok, acct := acct', world := world', dropIssuedFor := none }

/-- A freshly created desired-state object: nothing observed yet. -/
def initialAccount (specDuration : String) : SnowflakeAccount :=
  { deletionRequested := false, hasFinalizer := false, specDuration := specDuration
    status := { accountCreated := false, accountURL := [], creationTime := none
                message := "" } }

/-- The persisted desired-state objects reachable by reconcile passes from a
freshly created object. -/
inductive Reachable : SnowflakeAccount → Prop where
  | init : ∀ spec, Reachable (initialAccount spec)
  | step : ∀ acct eff world, Reachable acct → Reachable (reconcile eff world acct).acct

/-! ## Lemmas about URL extraction -/

lemma prefixBeforeDot_of_no_dot (l : List Char) (h : '.' ∉ l) :
    prefixBeforeDot l = none := by
  induction l with
  | nil => rfl
  | cons c rest ih =>
    have hc : ¬ c = '.' := fun hc => h (by simp [hc])
    have hr : '.' ∉ rest := fun hm => h (List.mem_cons_of_mem _ hm)
    simp [prefixBeforeDot, hc, ih hr]

lemma prefixBeforeDot_append (a b : List Char) (h : '.' ∉ a) :
    prefixBeforeDot (a ++ '.' :: b) = some a := by
  induction a with
  | nil => simp [prefixBeforeDot]
  | cons c rest ih =>
    have hc : ¬ c = '.' := fun hc => h (by simp [hc])
    have hr : '.' ∉ rest := fun hm => h (List.mem_cons_of_mem _ hm)
    simp [prefixBeforeDot, hc, ih hr]

lemma stripScheme_accountURLFor (name : List Char) :
    stripScheme (accountURLFor name) =
      name ++ ".snowflakecomputing.com".toList := by
  have hlen : 8 < (accountURLFor name).length := by
    simp [accountURLFor]
  have htake : (accountURLFor name).take 8 = "https://".toList := by
    have := List.take_left "https://".toList
      (name ++ ".snowflakecomputing.com".toList)
    simpa [accountURLFor] using this
  have hdrop : (accountURLFor name).drop 8 =
      name ++ ".snowflakecomputing.com".toList := by
    have := List.drop_left "https://".toList
      (name ++ ".snowflakecomputing.com".toList)
    simpa [accountURLFor] using this
  simp [stripScheme, hlen, htake, hdrop]

/-- Claim C10: Round-trip of the account URL encoding: for every non-empty
account name containing no `'.'`, `extractAccountNameFromURL` applied to the
status URL `https://<name>.snowflakecomputing.com` returns exactly the name;
moreover it returns `""` on the empty URL and on any URL whose scheme-stripped
form contains no `'.'`. -/
theorem extractAccountNameFromURL_roundtrip (name : List Char)
    (hne : name ≠ []) (hnd : '.' ∉ name) :
    extractAccountNameFromURL (accountURLFor name) = name ∧
    extractAccountNameFromURL [] = [] ∧
    (∀ url : List Char, '.' ∉ stripScheme url →
      extractAccountNameFromURL url = []) := by
  refine ⟨?_, rfl, ?_⟩
  · have hurl : accountURLFor name ≠ [] := by simp [accountURLFor]
    have hsuffix : ".snowflakecomputing.com".toList =
        '.' :: "snowflakecomputing.com".toList := rfl
    have hpre : prefixBeforeDot (stripScheme (accountURLFor name)) = some name := by
      rw [stripScheme_accountURLFor, hsuffix]
      exact prefixBeforeDot_append name _ hnd
    simp [extractAccountNameFromURL, hurl, hpre]
  · intro url h
    by_cases hu : url = []
    · simp [extractAccountNameFromURL, hu]
    · simp [extractAccountNameFromURL, hu, prefixBeforeDot_of_no_dot _ h]

/-- Witness for C10 at the concrete name `SF12AB`. -/
theorem extractAccountNameFromURL_roundtrip_witness :
    extractAccountNameFromURL (accountURLFor "SF12AB".toList) = "SF12AB".toList :=
  (extractAccountNameFromURL_roundtrip "SF12AB".toList (by decide) (by decide)).1

/-! ## Duration policy: C3 and C5 -/

/-- Claim C3: For every set creation time, every effective duration and every
clock value, `checkDuration` reports due iff `now` is strictly beyond
`creationTime + duration`; at equality it reports not-yet-due with remaining
exactly 0, and whenever it reports not-yet-due the remaining interval equals
`(creationTime + duration) - now`. -/
theorem checkDuration_policy (parse : String → Option Int) (now ct : Int)
    (acct : SnowflakeAccount) (h : acct.status.creationTime = some ct) :
    ((checkDuration parse now acct).1 = true ↔
      ct + effectiveDuration parse acct.specDuration < now) ∧
    (now = ct + effectiveDuration parse acct.specDuration →
      checkDuration parse now acct = (false, 0)) ∧
    ((checkDuration parse now acct).1 = false →
      (checkDuration parse now acct).2 =
        ct + effectiveDuration parse acct.specDuration - now) := by
  simp only [checkDuration, h]
  by_cases hlt : ct + effectiveDuration parse acct.specDuration < now
  · refine ⟨by simp [hlt], fun he => by omega, by simp [hlt]⟩
  · refine ⟨by simp [hlt], fun he => by simp [hlt]; omega, by simp [hlt]⟩

/-- Witness for C3: with a failing parser, 2 minutes after a creation at 0 the
account is exactly at its expiry instant and `checkDuration` reports
`(false, 0)`. -/
theorem checkDuration_policy_witness :
    checkDuration (fun _ => none) twoMinutesNs
      { deletionRequested := false, hasFinalizer := true, specDuration := ""
        status := { accountCreated := true, accountURL := []
                    creationTime := some 0, message := "" } } = (false, 0) :=
  (checkDuration_policy (fun _ => none) twoMinutesNs 0 _ rfl).2.1 (by decide)

/-! ## Teardown idempotence: C6 -/

/-- Claim C6: Teardown is idempotent: with valid credentials and a working
connection, for any account name recorded in the status URL, two successive
`deleteSnowflakeAccount` calls both succeed — the first issues the drop and
removes the account, and the second succeeds as well even though the account
is already gone (`DROP ACCOUNT IF EXISTS` semantics). -/
theorem deleteSnowflakeAccount_idempotent (e1 e2 : DeleteEffects)
    (world : World) (acct : SnowflakeAccount)
    (hc1 : e1.credsOk = true) (ho1 : e1.connectOk = true)
    (hc2 : e2.credsOk = true) (ho2 : e2.connectOk = true)
    (hname : extractAccountNameFromURL acct.status.accountURL ≠ []) :
    (deleteSnowflakeAccount e1 world acct).err = none ∧
    (deleteSnowflakeAccount e1 world acct).dropIssuedFor =
      some (extractAccountNameFromURL acct.status.accountURL) ∧
    extractAccountNameFromURL acct.status.accountURL ∉
      (deleteSnowflakeAccount e1 world acct).world ∧
    (deleteSnowflakeAccount e2 (deleteSnowflakeAccount e1 world acct).world acct).err
      = none ∧
    (deleteSnowflakeAccount e2 (deleteSnowflakeAccount e1 world acct).world acct).dropIssuedFor
      = some (extractAccountNameFromURL acct.status.accountURL) := by
  simp only [deleteSnowflakeAccount, deleteSnowflakeAccountRun, hname,
    if_neg hname, hc1, ho1, hc2, ho2]
  simp [dropAccountIfExists]

/-- Witness for C6 at a concrete state whose status URL records `SFTEST01`. -/
theorem deleteSnowflakeAccount_idempotent_witness :
    (deleteSnowflakeAccount
      { secretList := .ok [], credsOk := true, connectOk := true }
      ["SFTEST01".toList]
      { deletionRequested := true, hasFinalizer := true, specDuration := ""
        status := { accountCreated := true
                    accountURL := accountURLFor "SFTEST01".toList
                    creationTime := some 0, message := "" } }).err = none :=
  (deleteSnowflakeAccount_idempotent
    { secretList := .ok [], credsOk := true, connectOk := true }
    { secretList := .ok [], credsOk := true, connectOk := true }
    ["SFTEST01".toList] _ rfl rfl rfl rfl (by decide)).1

/-! ## Congruence lemmas: which inputs each pass stage actually reads -/

lemma deleteSnowflakeAccount_status_congr (eff : DeleteEffects) (w : World)
    (a b : SnowflakeAccount) (h : a.status = b.status) :
    deleteSnowflakeAccount eff w a = deleteSnowflakeAccount eff w b := by
  unfold deleteSnowflakeAccount
  rw [h]

lemma finalizeSnowflakeAccount_status_congr (eff : DeleteEffects) (w : World)
    (a b : SnowflakeAccount) (h : a.status = b.status) :
    finalizeSnowflakeAccount eff w a = finalizeSnowflakeAccount eff w b := by
  unfold finalizeSnowflakeAccount
  rw [deleteSnowflakeAccount_status_congr eff w a b h, h]

lemma handleFinalizerOperations_spec_congr (dEff : DeleteEffects) (u : Bool)
    (w : World) (d f : Bool) (sa sb : String) (st : SnowflakeStatus) :
    (handleFinalizerOperations dEff u w ⟨d, f, sa, st⟩).err =
      (handleFinalizerOperations dEff u w ⟨d, f, sb, st⟩).err ∧
    (handleFinalizerOperations dEff u w ⟨d, f, sa, st⟩).continueReconciliation =
      (handleFinalizerOperations dEff u w ⟨d, f, sb, st⟩).continueReconciliation := by
  have hfin : finalizeSnowflakeAccount dEff w ⟨d, f, sa, st⟩ =
      finalizeSnowflakeAccount dEff w ⟨d, f, sb, st⟩ :=
    finalizeSnowflakeAccount_status_congr dEff w _ _ rfl
  unfold handleFinalizerOperations
  rw [hfin]
  cases d <;> cases f <;> cases u <;>
    rcases hE : (finalizeSnowflakeAccount dEff w
      { deletionRequested := true, hasFinalizer := true, specDuration := sb
        status := st }).err with _ | e <;>
    simp [hE]

lemma checkDuration_congr (parse : String → Option Int) (now : Int)
    (a b : SnowflakeAccount) (hst : a.status = b.status)
    (heff : effectiveDuration parse a.specDuration =
      effectiveDuration parse b.specDuration) :
    checkDuration parse now a = checkDuration parse now b := by
  unfold checkDuration
  rw [hst, heff]

/-- The dispatcher-visible result of a pass depends on the object only through
its deletion mark, finalizer, status, and the effective duration its spec
parses to. -/
lemma reconcile_result_congr (eff : PassEffects) (world : World)
    (a b : SnowflakeAccount)
    (h1 : a.deletionRequested = b.deletionRequested)
    (h2 : a.hasFinalizer = b.hasFinalizer)
    (h3 : a.status = b.status)
    (h4 : effectiveDuration eff.parse a.specDuration =
      effectiveDuration eff.parse b.specDuration) :
    (reconcile eff world a).result = (reconcile eff world b).result := by
  obtain ⟨da, fa, sa, sta⟩ := a
  obtain ⟨db, fb, sb, stb⟩ := b
  simp only at h1 h2 h3
  subst h1 h2 h3
  have hfo := handleFinalizerOperations_spec_congr eff.delEff eff.updateOk world
    da fa sa sb sta
  have hcd := checkDuration_congr eff.parse eff.now
    ⟨da, fa, sa, sta⟩ ⟨da, fa, sb, sta⟩ rfl h4
  unfold reconcile
  cases hg : eff.getOutcome <;> simp
  rw [hfo.1, hfo.2, hcd]
  cases hc : (handleFinalizerOperations eff.delEff eff.updateOk world
      ⟨da, fa, sb, sta⟩).continueReconciliation <;> simp
  cases hcr : sta.accountCreated <;> simp [hcr]
  · rcases hcrr : eff.createResult with e | details <;> simp
    rcases hse : eff.createSecretErr with _ | se <;> simp
    cases hsu : eff.statusUpdateOk <;> simp [updateStatusAfterCreation, hsu]
  · rcases hpair : checkDuration eff.parse eff.now ⟨da, fa, sb, sta⟩ with ⟨sd, r⟩
    cases sd
    · by_cases h0 : 0 < r <;> simp [h0]
    · cases hdo : eff.deleteResourceOk <;> simp [hdo]

/-- Claim C5: For every duration string that fails `time.ParseDuration` and for
the empty string, the effective duration `checkDuration` uses is exactly 2
minutes, and the pass's dispatcher-visible result is the one it would have
with the default duration — the parse failure never fails the pass.
(`parse "2m" = 2min` records the fixed `time.ParseDuration` behavior on the
default string.) -/
theorem checkDuration_parse_fallback (eff : PassEffects) (world : World)
    (acct : SnowflakeAccount)
    (hp : eff.parse "2m" = some twoMinutesNs)
    (h : eff.parse acct.specDuration = none ∨ acct.specDuration = "") :
    effectiveDuration eff.parse acct.specDuration = twoMinutesNs ∧
    (reconcile eff world acct).result =
      (reconcile eff world { acct with specDuration := "" }).result := by
  have heff0 : effectiveDuration eff.parse "" = twoMinutesNs := by
    simp [effectiveDuration, hp]
  have heff : effectiveDuration eff.parse acct.specDuration = twoMinutesNs := by
    rcases h with h | h
    · by_cases hs : acct.specDuration = ""
      · rw [hs]; exact heff0
      · simp [effectiveDuration, hs, h]
    · rw [h]; exact heff0
  refine ⟨heff, reconcile_result_congr eff world _ _ rfl rfl rfl ?_⟩
  exact heff.trans heff0.symm

/-- A parse standing for `time.ParseDuration` in witnesses: recognizes only
the default string `"2m"`. -/
def parseOnly2m : String → Option Int :=
  fun s => if s = "2m" then some twoMinutesNs else none

/-- Witness for C5 with the unparsable duration string `"bogus"`. -/
theorem checkDuration_parse_fallback_witness :
    effectiveDuration parseOnly2m "bogus" = twoMinutesNs :=
  (checkDuration_parse_fallback
    { getOutcome := .found
      delEff := { secretList := .ok [], credsOk := true, connectOk := true }
      updateOk := true, statusUpdateOk := true
      createResult := .error "boom", createSecretErr := none
      deleteResourceOk := true, now := 0, parse := parseOnly2m }
    []
    { deletionRequested := false, hasFinalizer := true, specDuration := "bogus"
      status := { accountCreated := true, accountURL := []
                  creationTime := some 0, message := "" } }
    (by decide) (Or.inl (by decide))).1

/-! ## Finalizer protocol: C4 and C9 -/

/-- Claim C4: After a successful reconcile pass on a deletion-marked object the
finalizer is gone; the finalizer is removed only when teardown
(`finalizeSnowflakeAccount`) returned no error; and a teardown error both
fails the pass and leaves the finalizer in place. -/
theorem finalizer_gates_teardown (eff : PassEffects) (world : World)
    (acct : SnowflakeAccount)
    (hget : eff.getOutcome = .found)
    (hdel : acct.deletionRequested = true) :
    ((reconcile eff world acct).result = .ok →
      (reconcile eff world acct).acct.hasFinalizer = false) ∧
    ((reconcile eff world acct).acct.hasFinalizer = false →
      acct.hasFinalizer = true →
      (finalizeSnowflakeAccount eff.delEff world acct).err = none) ∧
    (acct.hasFinalizer = true →
      (finalizeSnowflakeAccount eff.delEff world acct).err ≠ none →
      (reconcile eff world acct).result ≠ .ok ∧
      (reconcile eff world acct).acct.hasFinalizer = true) := by
  obtain ⟨dr, fin, sp, st⟩ := acct
  simp only at hdel
  subst hdel
  unfold reconcile handleFinalizerOperations
  rw [hget]
  cases fin <;>
    rcases hE : (finalizeSnowflakeAccount eff.delEff world
      { deletionRequested := true, hasFinalizer := true, specDuration := sp
        status := st }).err with _ | e <;>
    cases hu : eff.updateOk <;>
    simp [hE]

/-- Witness for C4: deletion requested, finalizer present, account never
created (teardown skips), persistence succeeds — the pass succeeds and the
finalizer is removed. -/
theorem finalizer_gates_teardown_witness :
    (reconcile
      { getOutcome := .found
        delEff := { secretList := .ok [], credsOk := true, connectOk := true }
        updateOk := true, statusUpdateOk := true
        createResult := .error "unused", createSecretErr := none
        deleteResourceOk := true, now := 0, parse := parseOnly2m }
      []
      { deletionRequested := true, hasFinalizer := true, specDuration := ""
        status := { accountCreated := false, accountURL := []
                    creationTime := none, message := "" } }).acct.hasFinalizer
      = false :=
  (finalizer_gates_teardown _ _ _ rfl rfl).1 (by decide)

/-- Claim C9: A pass on an object whose deletion is requested while
`accountCreated` is still false skips teardown entirely: no drop statement is
issued, the external world is untouched, the finalizer is removed, and the
pass succeeds. -/
theorem deletion_before_creation_skips_teardown (eff : PassEffects)
    (world : World) (acct : SnowflakeAccount)
    (hget : eff.getOutcome = .found)
    (hdel : acct.deletionRequested = true)
    (hfin : acct.hasFinalizer = true)
    (hnc : acct.status.accountCreated = false)
    (hupd : eff.updateOk = true) :
    (reconcile eff world acct).result = .ok ∧
    (reconcile eff world acct).acct.hasFinalizer = false ∧
    (reconcile eff world acct).dropIssuedFor = none ∧
    (reconcile eff world acct).world = world := by
  obtain ⟨dr, fin, sp, st⟩ := acct
  simp only at hdel hfin hnc
  subst hdel hfin
  have hfz : finalizeSnowflakeAccount eff.delEff world
      { deletionRequested := true, hasFinalizer := true, specDuration := sp
        status := st } =
      { err := none, world := world, dropIssuedFor := none } := by
    unfold finalizeSnowflakeAccount
    simp [hnc]
  unfold reconcile handleFinalizerOperations
  rw [hget, hfz]
  simp [hupd]

/-- Witness for C9 at a concrete pre-creation object. -/
theorem deletion_before_creation_skips_teardown_witness :
    (reconcile
      { getOutcome := .found
        delEff := { secretList := .error "api down", credsOk := false, connectOk := false }
        updateOk := true, statusUpdateOk := false
        createResult := .error "unused", createSecretErr := some "unused"
        deleteResourceOk := false, now := 7, parse := parseOnly2m }
      ["SFOTHER0".toList]
      { deletionRequested := true, hasFinalizer := true, specDuration := "5m"
        status := { accountCreated := false, accountURL := []
                    creationTime := none, message := "" } }).dropIssuedFor = none :=
  (deletion_before_creation_skips_teardown _ _ _ rfl rfl rfl rfl rfl).2.2.1

/-! ## Provisioning failure: C7 -/

/-- Claim C7: When the external create-account call fails, the pass records
`Failed to create account: <err>` into the status message (when the
best-effort status write goes through), leaves `accountCreated` false, and
fails with the original error — a status-write failure is never escalated in
its place. -/
theorem createFailure_policy (eff : PassEffects) (world : World)
    (acct : SnowflakeAccount) (e : String)
    (hget : eff.getOutcome = .found)
    (hdel : acct.deletionRequested = false)
    (hfin : acct.hasFinalizer = true)
    (hnc : acct.status.accountCreated = false)
    (hcr : eff.createResult = .error e) :
    (reconcile eff world acct).result = .failure e ∧
    (reconcile eff world acct).acct.status.accountCreated = false ∧
    (eff.statusUpdateOk = true →
      (reconcile eff world acct).acct.status.message =
        "Failed to create account: " ++ e) ∧
    (∀ b, (reconcile { eff with statusUpdateOk := b } world acct).result =
      .failure e) := by
  obtain ⟨dr, fin, sp, st⟩ := acct
  simp only at hdel hfin hnc
  subst hdel hfin
  unfold reconcile handleFinalizerOperations
  rw [hget]
  simp only [hnc, hcr]
  refine ⟨by cases hsu : eff.statusUpdateOk <;> simp [hsu], ?_, ?_, ?_⟩
  · cases hsu : eff.statusUpdateOk <;> simp [hsu, hnc]
  · intro hsu; simp [hsu]
  · intro b; cases b <;> simp

/-- Witness for C7 with the concrete error `connection refused`. -/
theorem createFailure_policy_witness :
    (reconcile
      { getOutcome := .found
        delEff := { secretList := .ok [], credsOk := true, connectOk := true }
        updateOk := true, statusUpdateOk := true
        createResult := .error "connection refused", createSecretErr := none
        deleteResourceOk := true, now := 0, parse := parseOnly2m }
      []
      { deletionRequested := false, hasFinalizer := true, specDuration := ""
        status := { accountCreated := false, accountURL := []
                    creationTime := none, message := "" } }).result
      = .failure "connection refused" :=
  (createFailure_policy _ _ _ "connection refused" rfl rfl rfl rfl rfl).1

/-! ## Status evolution across a pass: C2 -/

lemma handleFinalizerOperations_acct_status (dEff : DeleteEffects) (u : Bool)
    (w : World) (a : SnowflakeAccount) :
    (handleFinalizerOperations dEff u w a).acct.status = a.status := by
  obtain ⟨dr, fin, sp, st⟩ := a
  unfold handleFinalizerOperations
  cases dr <;> cases fin <;> cases u <;>
    rcases hE : (finalizeSnowflakeAccount dEff w
      { deletionRequested := true, hasFinalizer := true, specDuration := sp
        status := st }).err with _ | e <;>
    simp [hE]

/-- In one pass the persisted status either stays unchanged, changes only in
its message, or is the creation update: `accountCreated := true`, the URL
built from a generated name, the fixed success message, and
`creationTime := now` — the last only from a state with
`accountCreated = false`. -/
lemma reconcile_status_cases (eff : PassEffects) (world : World)
    (acct : SnowflakeAccount) :
    (reconcile eff world acct).acct.status = acct.status ∨
    (∃ m, (reconcile eff world acct).acct.status =
      { acct.status with message := m }) ∨
    (acct.status.accountCreated = false ∧ ∃ name,
      (reconcile eff world acct).acct.status =
        { accountCreated := true, accountURL := accountURLFor name
          message := "Snowflake account created successfully"
          creationTime := some eff.now }) := by
  cases hg : eff.getOutcome
  case notFound => exact Or.inl (by simp [reconcile, hg])
  case fetchError e => exact Or.inl (by simp [reconcile, hg])
  case found =>
  simp only [reconcile, hg]
  cases hc : (handleFinalizerOperations eff.delEff eff.updateOk world
      acct).continueReconciliation
  · exact Or.inl (by
      simp [hc, handleFinalizerOperations_acct_status])
  · simp only [hc, Bool.not_true, Bool.false_eq_true, if_false]
    cases hcr : acct.status.accountCreated
    · simp only [Bool.false_eq_true, if_false]
      rcases hcrr : eff.createResult with e | details
      · cases hsu : eff.statusUpdateOk
        · exact Or.inl (by simp [hcrr, hsu])
        · exact Or.inr (Or.inl ⟨"Failed to create account: " ++ e,
            by simp [hcrr, hsu]⟩)
      · rcases hse : eff.createSecretErr with _ | se
        · cases hsu : eff.statusUpdateOk
          · exact Or.inl (by simp [hcrr, hse, updateStatusAfterCreation, hsu])
          · exact Or.inr (Or.inr ⟨by simp, ⟨details.accountName,
              by simp [hcrr, hse, updateStatusAfterCreation, hsu]⟩⟩)
        · cases hsu : eff.statusUpdateOk
          · exact Or.inl (by simp [hcrr, hse, hsu])
          · exact Or.inr (Or.inl
              ⟨"Account created but failed to store credentials: " ++ se,
               by simp [hcrr, hse, hsu]⟩)
    · simp only [if_true]
      rcases hpair : checkDuration eff.parse eff.now acct with ⟨sd, r⟩
      cases sd
      · by_cases h0 : 0 < r <;> exact Or.inl (by simp [hpair, h0])
      · cases hdo : eff.deleteResourceOk <;> exact Or.inl (by simp [hpair, hdo])

/-- The per-state invariant of claim C2. -/
def statusOK (acct : SnowflakeAccount) : Prop :=
  acct.status.accountCreated = true →
    acct.status.accountURL ≠ [] ∧ acct.status.creationTime ≠ none

lemma statusOK_step (eff : PassEffects) (world : World)
    (acct : SnowflakeAccount) (h : statusOK acct) :
    statusOK (reconcile eff world acct).acct := by
  rcases reconcile_status_cases eff world acct with hs | ⟨m, hs⟩ | ⟨hcr, name, hs⟩
  · intro hc; rw [hs] at hc ⊢; exact h hc
  · intro hc
    rw [hs] at hc ⊢
    simp only at hc ⊢
    exact h hc
  · intro _
    rw [hs]
    exact ⟨by simp [accountURLFor], by simp⟩

lemma reachable_statusOK (acct : SnowflakeAccount) (h : Reachable acct) :
    statusOK acct := by
  induction h with
  | init spec => intro hc; simp [initialAccount] at hc
  | step acct eff world _ ih => exact statusOK_step eff world acct ih

lemma reconcile_creationTime_stable (eff : PassEffects) (world : World)
    (acct : SnowflakeAccount) (h : acct.status.accountCreated = true) :
    (reconcile eff world acct).acct.status.creationTime =
      acct.status.creationTime := by
  rcases reconcile_status_cases eff world acct with hs | ⟨m, hs⟩ | ⟨hcr, name, hs⟩
  · rw [hs]
  · rw [hs]
  · rw [h] at hcr; cases hcr

lemma reconcile_creationTime_change (eff : PassEffects) (world : World)
    (acct : SnowflakeAccount)
    (h : (reconcile eff world acct).acct.status.creationTime ≠
      acct.status.creationTime) :
    acct.status.accountCreated = false ∧
    (reconcile eff world acct).acct.status.accountCreated = true ∧
    (reconcile eff world acct).acct.status.creationTime = some eff.now := by
  rcases reconcile_status_cases eff world acct with hs | ⟨m, hs⟩ | ⟨hcr, name, hs⟩
  · exact absurd (by rw [hs]) h
  · exact absurd (by rw [hs]) h
  · exact ⟨hcr, by rw [hs], by rw [hs]⟩

/-- Claim C2: On every reachable persisted state, `accountCreated = true` implies
the URL and the creation time are both set; a pass never changes
`creationTime` once `accountCreated` holds; and the only passes that change
`creationTime` are those that flip `accountCreated` from false to true, which
set it to the pass's clock reading. -/
theorem observedState_invariant (acct : SnowflakeAccount) (h : Reachable acct) :
    (acct.status.accountCreated = true →
      acct.status.accountURL ≠ [] ∧ acct.status.creationTime ≠ none) ∧
    (∀ eff world, acct.status.accountCreated = true →
      (reconcile eff world acct).acct.status.creationTime =
        acct.status.creationTime) ∧
    (∀ eff world,
      (reconcile eff world acct).acct.status.creationTime ≠
        acct.status.creationTime →
      acct.status.accountCreated = false ∧
      (reconcile eff world acct).acct.status.accountCreated = true ∧
      (reconcile eff world acct).acct.status.creationTime = some eff.now) :=
  ⟨reachable_statusOK acct h,
   fun eff world hc => reconcile_creationTime_stable eff world acct hc,
   fun eff world hne => reconcile_creationTime_change eff world acct hne⟩

/-- Effects of a pass that only attaches the finalizer. -/
def effAttach : PassEffects :=
  { getOutcome := .found
    delEff := { secretList := .ok [], credsOk := true, connectOk := true }
    updateOk := true, statusUpdateOk := true
    createResult := .error "unused", createSecretErr := none
    deleteResourceOk := true, now := 41, parse := parseOnly2m }

/-- Effects of a pass that provisions successfully at clock value 42. -/
def effCreate : PassEffects :=
  { getOutcome := .found
    delEff := { secretList := .ok [], credsOk := true, connectOk := true }
    updateOk := true, statusUpdateOk := true
    createResult := .ok
      { accountName := "SFAB12".toList, adminName := "admin_u1ok2pq3".toList
        adminPassword := "x".toList, email := "e".toList
        region := "AWS_US_WEST_2".toList, edition := "ENTERPRISE".toList }
    createSecretErr := none
    deleteResourceOk := true, now := 42, parse := parseOnly2m }

/-- The reachable state after attaching the finalizer and then provisioning. -/
def createdAccount : SnowflakeAccount :=
  (reconcile effCreate [] (reconcile effAttach [] (initialAccount "")).acct).acct

/-- Witness for C2: on the concrete reachable created state, a further pass
leaves `creationTime` at its recorded value. -/
theorem observedState_invariant_witness :
    (reconcile effAttach [] createdAccount).acct.status.creationTime =
      createdAccount.status.creationTime :=
  (observedState_invariant createdAccount
    (Reachable.step _ effCreate []
      (Reachable.step _ effAttach [] (Reachable.init "")))).2.1
    effAttach [] (by decide)

/-! ## Teardown name resolution: C1 -/

/-- Claim C1, failing input: A teardown pass on an object whose status URL is
empty while a labelled owned secret records the account name `SF1A2B3C`:
the name read from the secret is checked but, because the source binds it to
a variable that shadows the outer `accountName`, the `DROP ACCOUNT` statement
is executed with the empty outer name — not `SF1A2B3C` — and the recorded
account survives in the external organization while the call reports success. -/
theorem deleteSnowflakeAccount_secret_fallback_bug :
    (deleteSnowflakeAccount
      { secretList := .ok ["SF1A2B3C".toList], credsOk := true, connectOk := true }
      ["SF1A2B3C".toList]
      { deletionRequested := true, hasFinalizer := true, specDuration := ""
        status := { accountCreated := true, accountURL := []
                    creationTime := some 0, message := "" } }).err = none ∧
    (deleteSnowflakeAccount
      { secretList := .ok ["SF1A2B3C".toList], credsOk := true, connectOk := true }
      ["SF1A2B3C".toList]
      { deletionRequested := true, hasFinalizer := true, specDuration := ""
        status := { accountCreated := true, accountURL := []
                    creationTime := some 0, message := "" } }).dropIssuedFor
      = some [] ∧
    (deleteSnowflakeAccount
      { secretList := .ok ["SF1A2B3C".toList], credsOk := true, connectOk := true }
      ["SF1A2B3C".toList]
      { deletionRequested := true, hasFinalizer := true, specDuration := ""
        status := { accountCreated := true, accountURL := []
                    creationTime := some 0, message := "" } }).dropIssuedFor
      ≠ some ("SF1A2B3C".toList) ∧
    "SF1A2B3C".toList ∈
      (deleteSnowflakeAccount
        { secretList := .ok ["SF1A2B3C".toList], credsOk := true, connectOk := true }
        ["SF1A2B3C".toList]
        { deletionRequested := true, hasFinalizer := true, specDuration := ""
          status := { accountCreated := true, accountURL := []
                      creationTime := some 0, message := "" } }).world := by
  decide

/-! ## Generator lemmas: C8 -/

lemma length_generateRandomString (o : Nat → Option Nat) (n : Nat)
    (cs : List Char) : (generateRandomString o n cs).length = n := by
  simp [generateRandomString]

lemma mem_charset_of_mem_generateRandomString (o : Nat → Option Nat) (n : Nat)
    (cs : List Char) (hcs : cs ≠ []) :
    ∀ c ∈ generateRandomString o n cs, c ∈ cs := by
  intro c hc
  have hpos : 0 < cs.length := List.length_pos.mpr hcs
  simp only [generateRandomString, List.mem_map, List.mem_range] at hc
  obtain ⟨i, _, heq⟩ := hc
  rcases ho : o i with _ | r
  · rw [show goRandInt o i cs.length = none by simp [goRandInt, ho]] at heq
    have hlt : i % cs.length < cs.length := Nat.mod_lt _ hpos
    rw [List.getD_eq_getElem cs 'A' hlt] at heq
    exact heq ▸ List.getElem_mem hlt
  · rw [show goRandInt o i cs.length = some (r % cs.length) by
      simp [goRandInt, ho]] at heq
    have hlt : r % cs.length < cs.length := Nat.mod_lt _ hpos
    have heq' : cs.getD (r % cs.length) 'A' = c := heq
    rw [List.getD_eq_getElem cs 'A' hlt] at heq'
    exact heq' ▸ List.getElem_mem hlt

lemma count_set_aux (l : List Char) (i : Nat) (a c : Char) (h : i < l.length) :
    (l.set i a).count c + (if l[i] = c then 1 else 0) =
      l.count c + (if a = c then 1 else 0) := by
  induction l generalizing i with
  | nil => simp at h
  | cons x xs ih =>
    cases i with
    | zero =>
      simp only [List.set, List.count_cons, List.getElem_cons_zero, beq_iff_eq]
      split_ifs <;> omega
    | succ i =>
      have hi : i < xs.length := by simpa using h
      have hx := ih i hi
      simp only [List.set, List.count_cons, List.getElem_cons_succ, beq_iff_eq]
      split_ifs at hx ⊢ <;> omega

lemma count_swapList (l : List Char) (i j : Nat) (c : Char) :
    (swapList l i j).count c = l.count c := by
  unfold swapList
  rcases hgi : l.get? i with _ | a <;> rcases hgj : l.get? j with _ | b <;> simp
  have hi : i < l.length := by
    rw [List.get?_eq_getElem?] at hgi
    exact (List.getElem?_eq_some.mp hgi).1
  have hj : j < l.length := by
    rw [List.get?_eq_getElem?] at hgj
    exact (List.getElem?_eq_some.mp hgj).1
  have li : l[i] = a := by
    rw [List.get?_eq_getElem?, List.getElem?_eq_getElem hi] at hgi
    exact Option.some.inj hgi
  have lj : l[j] = b := by
    rw [List.get?_eq_getElem?, List.getElem?_eq_getElem hj] at hgj
    exact Option.some.inj hgj
  have hj' : j < (l.set i b).length := by rw [List.length_set]; exact hj
  have hsetj : (l.set i b)[j] = b := by
    by_cases hij : i = j
    · subst hij
      exact List.getElem_set_self hj'
    · rw [List.getElem_set_of_ne hij]
      exact lj
  have h1 := count_set_aux (l.set i b) j a c hj'
  rw [hsetj] at h1
  have h2 := count_set_aux l i b c hi
  rw [li] at h2
  split_ifs at h1 h2 <;> omega

lemma count_shuffleStep (o : Nat → Option Nat) (l : List Char) (i : Nat)
    (c : Char) : (shuffleStep o l i).count c = l.count c := by
  unfold shuffleStep
  rcases ho : goRandInt o i (i + 1) with _ | j <;> simp [count_swapList]

lemma count_shuffleDown (o : Nat → Option Nat) (n : Nat) (c : Char) :
    ∀ l : List Char, (shuffleDown o l n).count c = l.count c := by
  induction n with
  | zero => intro l; rfl
  | succ n ih =>
    intro l
    rw [shuffleDown, ih (shuffleStep o l (n + 1)), count_shuffleStep]

lemma shuffleString_perm (o : Nat → Option Nat) (l : List Char) :
    (shuffleString o l).Perm l :=
  List.perm_iff_count.mpr fun c => count_shuffleDown o (l.length - 1) c l

/-- Claim C8: The password generator returns 14 characters, at least one from
each of the four character classes, for every randomness oracle (including
total failure of the secure source); the account-name generator returns `SF`
plus exactly 6 uppercase-alphanumeric characters; the username generator
returns `admin_` plus exactly 8 lowercase-alphanumeric characters. -/
theorem generator_contracts (oa ou o1 o2 o3 o4 os : Nat → Option Nat) :
    (generateRandomPassword o1 o2 o3 o4 os).length = 14 ∧
    (∃ c ∈ generateRandomPassword o1 o2 o3 o4 os, c ∈ upperChars) ∧
    (∃ c ∈ generateRandomPassword o1 o2 o3 o4 os, c ∈ lowerChars) ∧
    (∃ c ∈ generateRandomPassword o1 o2 o3 o4 os, c ∈ digitChars) ∧
    (∃ c ∈ generateRandomPassword o1 o2 o3 o4 os, c ∈ specialChars) ∧
    (generateRandomAccountName oa).take 2 = "SF".toList ∧
    ((generateRandomAccountName oa).drop 2).length = 6 ∧
    (∀ c ∈ (generateRandomAccountName oa).drop 2, c ∈ upperAlnumChars) ∧
    (generateRandomUsername ou).take 6 = "admin_".toList ∧
    ((generateRandomUsername ou).drop 6).length = 8 ∧
    (∀ c ∈ (generateRandomUsername ou).drop 6, c ∈ lowerAlnumChars) := by
  have hperm := shuffleString_perm os
    (generateRandomString o1 4 upperChars ++ generateRandomString o2 4 lowerChars
      ++ generateRandomString o3 4 digitChars
      ++ generateRandomString o4 2 specialChars)
  have hsegu : generateRandomString o1 4 upperChars ≠ [] := by
    intro h
    have := length_generateRandomString o1 4 upperChars
    rw [h] at this
    simp at this
  have hsegl : generateRandomString o2 4 lowerChars ≠ [] := by
    intro h
    have := length_generateRandomString o2 4 lowerChars
    rw [h] at this
    simp at this
  have hsegn : generateRandomString o3 4 digitChars ≠ [] := by
    intro h
    have := length_generateRandomString o3 4 digitChars
    rw [h] at this
    simp at this
  have hsegs : generateRandomString o4 2 specialChars ≠ [] := by
    intro h
    have := length_generateRandomString o4 2 specialChars
    rw [h] at this
    simp at this
  refine ⟨?_, ?_, ?_, ?_, ?_, ?_, ?_, ?_, ?_, ?_, ?_⟩
  · rw [generateRandomPassword]
    rw [hperm.length_eq]
    simp [length_generateRandomString]
  · refine ⟨(generateRandomString o1 4 upperChars).head hsegu,
      hperm.mem_iff.mpr ?_, ?_⟩
    · simp [List.head_mem hsegu]
    · exact mem_charset_of_mem_generateRandomString o1 4 upperChars (by decide)
        _ (List.head_mem hsegu)
  · refine ⟨(generateRandomString o2 4 lowerChars).head hsegl,
      hperm.mem_iff.mpr ?_, ?_⟩
    · simp [List.head_mem hsegl]
    · exact mem_charset_of_mem_generateRandomString o2 4 lowerChars (by decide)
        _ (List.head_mem hsegl)
  · refine ⟨(generateRandomString o3 4 digitChars).head hsegn,
      hperm.mem_iff.mpr ?_, ?_⟩
    · simp [List.head_mem hsegn]
    · exact mem_charset_of_mem_generateRandomString o3 4 digitChars (by decide)
        _ (List.head_mem hsegn)
  · refine ⟨(generateRandomString o4 2 specialChars).head hsegs,
      hperm.mem_iff.mpr ?_, ?_⟩
    · simp [List.head_mem hsegs]
    · exact mem_charset_of_mem_generateRandomString o4 2 specialChars (by decide)
        _ (List.head_mem hsegs)
  · rw [generateRandomAccountName]
    have := List.take_left "SF".toList
      (generateRandomString oa 6 upperAlnumChars)
    simpa using this
  · rw [generateRandomAccountName]
    have := List.drop_left "SF".toList
      (generateRandomString oa 6 upperAlnumChars)
    simp only [show ("SF".toList).length = 2 from rfl] at this
    rw [this, length_generateRandomString]
  · intro c hc
    rw [generateRandomAccountName] at hc
    have := List.drop_left "SF".toList
      (generateRandomString oa 6 upperAlnumChars)
    simp only [show ("SF".toList).length = 2 from rfl] at this
    rw [this] at hc
    exact mem_charset_of_mem_generateRandomString oa 6 upperAlnumChars
      (by decide) c hc
  · rw [generateRandomUsername]
    have := List.take_left "admin_".toList
      (generateRandomString ou 8 lowerAlnumChars)
    simpa using this
  · rw [generateRandomUsername]
    have := List.drop_left "admin_".toList
      (generateRandomString ou 8 lowerAlnumChars)
    simp only [show ("admin_".toList).length = 6 from rfl] at this
    rw [this, length_generateRandomString]
  · intro c hc
    rw [generateRandomUsername] at hc
    have := List.drop_left "admin_".toList
      (generateRandomString ou 8 lowerAlnumChars)
    simp only [show ("admin_".toList).length = 6 from rfl] at this
    rw [this] at hc
    exact mem_charset_of_mem_generateRandomString ou 8 lowerAlnumChars
      (by decide) c hc

end Speck
